import Mathlib

set_option maxRecDepth 8000

/-!
Shallow embedding of the feed store and its operations from `feedln.py`,
together with theorems checking the specification's claims about them.

The sqlite schema (`setup_database`, feedln.py lines 106-150) has four
tables: `feeds`, `categories`, `feed_categories` and `feed_items`.  Rows
are embedded as structures; a table is a list of rows.  SQL `NULL` is
`Option.none`; SQL integer columns are `Nat`/`Int`.  Rowids (`INTEGER
PRIMARY KEY`) are allocated as max existing id + 1, as sqlite does for a
rowid table without `AUTOINCREMENT`.
-/

namespace Feedln

/-- A row of `feeds(id, name, url UNIQUE, tags, category)`.  The `category`
column exists in the schema but is never written by any loader, so it is
`NULL` (`none`) on every row the program creates. -/
structure FeedRow where
  id : Nat
  name : String
  url : String
  tags : String
  category : Option String
deriving DecidableEq, Repr

/-- A row of `categories(id, name UNIQUE)`. -/
structure CategoryRow where
  id : Nat
  name : String
deriving DecidableEq, Repr

/-- A row of `feed_categories(feed_id, category_id)` with
`PRIMARY KEY (feed_id, category_id)`.  This is a rowid table (the composite
primary key is a unique index, not `WITHOUT ROWID`), and sqlite's
`last_insert_rowid` reports its rowid after an insert, so the rowid is part
of the embedding. -/
structure FeedCategoryRow where
  rowid : Nat
  feed_id : Nat
  category_id : Nat
deriving DecidableEq, Repr

/-- A row of `feed_items(id, feed_id, title, summary, content, is_read,
last_updated, created, link, UNIQUE(feed_id, title))`. -/
structure ItemRow where
  id : Nat
  feed_id : Nat
  title : String
  summary : String
  content : String
  is_read : Nat
  last_updated : Int
  created : Int
  link : String
deriving DecidableEq, Repr

/-- The whole database state. -/
structure Store where
  feeds : List FeedRow
  categories : List CategoryRow
  feed_categories : List FeedCategoryRow
  feed_items : List ItemRow
deriving DecidableEq, Repr

/-- A sqlite connection: the database plus the connection-level
`last_insert_rowid` value, which Python exposes as `cursor.lastrowid`.
It starts at 0 on a fresh connection and is updated only by an insert that
actually inserts a row; an `INSERT OR IGNORE` that is ignored leaves it
unchanged. -/
structure Conn where
  store : Store
  lastRowid : Nat
deriving DecidableEq, Repr

/-- A fresh connection to a database, as opened by `sqlite3.connect`:
no insert has happened yet, so `last_insert_rowid` is 0. -/
def Conn.fresh (s : Store) : Conn := { store := s, lastRowid := 0 }

/-- Next rowid for an `INTEGER PRIMARY KEY` column: max existing + 1. -/
def nextId (ids : List Nat) : Nat := ids.foldr max 0 + 1

def nextFeedId (s : Store) : Nat := nextId (s.feeds.map (·.id))

def nextCategoryId (s : Store) : Nat := nextId (s.categories.map (·.id))

def nextFcRowid (s : Store) : Nat := nextId (s.feed_categories.map (·.rowid))

def nextItemId (s : Store) : Nat := nextId (s.feed_items.map (·.id))

/-- A parsed syndication entry, as produced by `feedparser` and consumed by
the merge loops (feedln.py lines 496-510 and 526-540).  The `*_parsed`
fields model `entry.get("updated_parsed")` etc. already converted by
`time.mktime` to an integer timestamp; `none` is an absent field. -/
structure Entry where
  title : String
  summary : String
  content : String
  updated_parsed : Option Int
  created_parsed : Option Int
  published_parsed : Option Int
  link : String
deriving DecidableEq, Repr

/-- Lines 497-502: `created_parsed` falls back to `published_parsed`, and a
missing timestamp becomes 0. -/
def entryUpdatedTs (e : Entry) : Int :=
  match e.updated_parsed with
  | some t => t
  | none => 0

def entryCreatedTs (e : Entry) : Int :=
  let created := match e.created_parsed with
    | some t => some t
    | none => e.published_parsed
  match created with
  | some t => t
  | none => 0

/-- Does the store already hold an item with this `(feed_id, title)` dedup
key?  This is the condition under which `INSERT OR IGNORE INTO feed_items`
is ignored, per `UNIQUE(feed_id, title)`. -/
def hasItem (s : Store) (fid : Nat) (t : String) : Bool :=
  s.feed_items.any (fun it => it.feed_id == fid && it.title == t)

/-- One iteration of the merge loop (lines 504-510): `INSERT OR IGNORE INTO
feed_items (feed_id, title, summary, content, last_updated, created, link)`.
`is_read` takes its schema default 0. -/
def insert_feed_item_or_ignore (s : Store) (fid : Nat) (e : Entry) : Store :=
  if hasItem s fid e.title then s
  else
    { s with feed_items := s.feed_items ++
        [{ id := nextItemId s, feed_id := fid, title := e.title,
           summary := e.summary, content := e.content, is_read := 0,
           last_updated := entryUpdatedTs e, created := entryCreatedTs e,
           link := e.link }] }

/-- The merge loop over all parsed entries of one feed. -/
def mergeEntries (s : Store) (fid : Nat) (entries : List Entry) : Store :=
  entries.foldl (fun st e => insert_feed_item_or_ignore st fid e) s

/-- `update_feed_items_according_to_content` (feedln.py lines 490-512): the
bulk-path merge of one fetched feed.  `result` is the `(feed, content)`
pair produced by the fetch; `none` content (failed fetch) merges nothing.
The parsed entry list stands for `feedparser.parse(result[1]).entries`.
The function commits at the end, so the returned store is the committed
state. -/
def update_feed_items_according_to_content (s : Store)
    (result : FeedRow × Option (List Entry)) : Store :=
  match result.2 with
  | none => s
  | some entries => mergeEntries s result.1.id entries

/-- `update_feed_items` (feedln.py lines 514-551): the single-feed fetch and
merge.  `response` is `none` for a non-200 status or a request exception
before any insert, and `some entries` for a 200 response.  Each list element
`Except.ok e` is an entry whose per-entry processing succeeds;
`Except.error ()` is an entry whose processing raises (for example
`time.mktime` overflowing on its timestamp, or a storage-engine error on
the insert).  The bare `except:` at line 546 catches the exception, after
which control falls through to `conn.commit()` at line 551 — so the
returned store keeps every row inserted before the failure. -/
def processEntriesUntilError (s : Store) (fid : Nat) :
    List (Except Unit Entry) → Store
  | [] => s
  | Except.error _ :: _ => s
  | Except.ok e :: rest => processEntriesUntilError (insert_feed_item_or_ignore s fid e) fid rest

def update_feed_items (s : Store) (feed : FeedRow)
    (response : Option (List (Except Unit Entry))) : Store :=
  match response with
  | none => s
  | some entries => processEntriesUntilError s feed.id entries

/-- `mark_item_as_read` (feedln.py lines 1186-1190):
`UPDATE feed_items SET is_read = ? WHERE id = ?` followed by a commit. -/
def mark_item_as_read (s : Store) (item_id : Nat) (read : Nat) : Store :=
  { s with feed_items := s.feed_items.map (fun it =>
      if it.id == item_id then { it with is_read := read } else it) }

/-- `mark_all_items_as` (feedln.py lines 628-631):
`UPDATE feed_items SET is_read = ? WHERE feed_id = ?`. -/
def mark_all_items_as (s : Store) (feed_id : Nat) (mark : Nat) : Store :=
  { s with feed_items := s.feed_items.map (fun it =>
      if it.feed_id == feed_id then { it with is_read := mark } else it) }

/-- The join `FROM feed_items fi JOIN feeds f ON fi.feed_id = f.id` shared
by both counting queries: one output row per (item, feed) pair with
matching ids. -/
def itemFeedPairs (feeds : List FeedRow) (items : List ItemRow) :
    List (ItemRow × FeedRow) :=
  items.flatMap (fun it =>
    (feeds.filter (fun f => f.id == it.feed_id)).map (fun f => (it, f)))

/-- The result of `SELECT COUNT(fi.id), SUM(CASE WHEN fi.is_read = 0 THEN 1
ELSE 0 END)` over a row list: `COUNT` of a non-null column is the row count
(0 with no rows), while `SUM` over zero rows is SQL `NULL` (`none`). -/
def countAndUnread (rows : List (ItemRow × FeedRow)) : Nat × Option Nat :=
  (rows.length,
   if rows.isEmpty then none
   else some (rows.countP (fun p => p.1.is_read == 0)))

/-- `get_feed_item_counts_by_feed` (feedln.py lines 565-574): counts over
the item/feed join restricted by `WHERE f.id = ?`. -/
def get_feed_item_counts_by_feed (s : Store) (feed : Nat) : Nat × Option Nat :=
  countAndUnread ((itemFeedPairs s.feeds s.feed_items).filter
    (fun p => p.2.id == feed))

/-- The subquery `SELECT feed_id FROM feed_categories WHERE category_id = ?`
of `get_feed_item_counts_by_category`. -/
def catFeedIds (s : Store) (category : Nat) : List Nat :=
  (s.feed_categories.filter (fun fc => fc.category_id == category)).map (·.feed_id)

/-- `get_feed_item_counts_by_category` (feedln.py lines 553-563): counts
over the item/feed join restricted by `WHERE f.id IN (SELECT feed_id FROM
feed_categories WHERE category_id = ?)`. -/
def get_feed_item_counts_by_category (s : Store) (category : Nat) : Nat × Option Nat :=
  countAndUnread ((itemFeedPairs s.feeds s.feed_items).filter
    (fun p => (catFeedIds s category).contains p.2.id))

/-- How the display code reads the unread component of either counts query
(feedln.py lines 770 and 905): `total[1] if total[1] is not None else 0`. -/
def displayedUnread (counts : Nat × Option Nat) : Nat := counts.2.getD 0

/-- Insertion sort on a boolean "comes first" relation, standing in for SQL
`ORDER BY`.  No claim in scope depends on the output order itself, only on
the output being a permutation of the input rows. -/
def insertB (le : α → α → Bool) (a : α) : List α → List α
  | [] => [a]
  | b :: bs => if le a b then a :: b :: bs else b :: insertB le a bs

def sortB (le : α → α → Bool) : List α → List α
  | [] => []
  | a :: as => insertB le a (sortB le as)

/-- The aggregate of the `orderby == 3` branch of `fetch_categories`
(feedln.py lines 377-385): `COUNT(CASE WHEN fi.is_read = 0 THEN 1 END)`
over the left-joined rows of one category.  Rows where the left joins find
no item produce `NULL` in the `CASE` and are not counted, so the aggregate
equals the row count of the corresponding inner join. -/
def categoryUnreadAgg (s : Store) (category : Nat) : Nat :=
  ((s.feed_categories.filter (fun fc => fc.category_id == category)).flatMap (fun fc =>
    (s.feeds.filter (fun f => f.id == fc.feed_id)).flatMap (fun f =>
      s.feed_items.filter (fun fi => fi.feed_id == f.id && fi.is_read == 0)))).length

/-- The `(c.name, c.id)` projection of the categories table. -/
def categoryPairs (s : Store) : List (String × Nat) :=
  s.categories.map (fun c => (c.name, c.id))

/-- `fetch_categories` (feedln.py lines 357-391): `SELECT DISTINCT name, id
FROM categories` under one of three orders (1: name, 2: id, 3: unread count
descending with name as tiebreak).  `GROUP BY c.name, c.id` in the third
query deduplicates like `DISTINCT` in the others. -/
def fetch_categories (s : Store) (orderby : Nat) : List (String × Nat) :=
  if orderby == 1 then
    sortB (fun a b => decide (a.1 ≤ b.1)) (categoryPairs s).dedup
  else if orderby == 2 then
    sortB (fun a b => decide (a.2 ≤ b.2)) (categoryPairs s).dedup
  else if orderby == 3 then
    sortB (fun a b =>
        decide (categoryUnreadAgg s b.2 < categoryUnreadAgg s a.2) ||
        (categoryUnreadAgg s a.2 == categoryUnreadAgg s b.2 && decide (a.1 ≤ b.1)))
      (categoryPairs s).dedup
  else []

/-- `fetch_feeds_by_category` (feedln.py lines 394-430) with the default
order argument, as called by `fetch_all_feeds` at line 465: the join
`FROM feeds f JOIN feed_categories fc ON f.id = fc.feed_id JOIN categories
c ON fc.category_id = c.id WHERE c.name = ?`.  The `ORDER BY c.name` key is
the constant `?` over every result row, so the output keeps join order. -/
def fetch_feeds_by_category (s : Store) (category : String) : List FeedRow :=
  s.feeds.flatMap (fun f =>
    (s.feed_categories.filter (fun fc => fc.feed_id == f.id)).flatMap (fun fc =>
      (s.categories.filter (fun c => c.id == fc.category_id && c.name == category)).map
        (fun _ => f)))

/-- The batch-assembly part of `fetch_all_feeds` (feedln.py lines 460-465):
`categories = fetch_categories(conn, 3)` and then `feeds.extend(
fetch_feeds_by_category(conn, category[0]))` for each category.  Every
element of the returned list is fetched once and merged once, and the
summary notices report `len(results)` with `results` one per element. -/
def fetch_all_feeds_batch (s : Store) : List FeedRow :=
  (fetch_categories s 3).flatMap (fun category => fetch_feeds_by_category s category.1)

/-- SQL three-valued truth of `x NOT IN (list)` for a nullable text column:
with an empty list it is TRUE; with `x` NULL or the list containing NULL
and no match it is NULL (not TRUE); otherwise TRUE iff no element equals
`x`.  Returns whether the predicate is TRUE (a `DELETE` removes exactly the
rows where its WHERE clause is TRUE). -/
def sqlNotInTexts (x : Option String) (l : List (Option String)) : Bool :=
  if l.isEmpty then true
  else match x with
    | none => false
    | some v => if l.contains (some v) then false
                else if l.contains none then false
                else true

/-- `clear_feeds_not_in_csv` (feedln.py lines 594-617), confirmed branch.
`fileUrls` is what `load_feed_urls(feedfile)` returns; the source calls it
on line 600 but discards the result (`feeds = set()` stays empty), then
deletes every db feed whose url is not in that empty set, then runs
`DELETE FROM feeds WHERE category NOT IN (SELECT DISTINCT category FROM
feeds)`. -/
def clear_feeds_not_in_csv (s : Store) (fileUrls : List String) : Store :=
  let feeds : List String := []
  let _ := fileUrls
  let db_feeds := s.feeds.map (·.url)
  let feeds_to_delete := db_feeds.filter (fun u => !(feeds.contains u))
  let s1 := { s with feeds := s.feeds.filter (fun f => !(feeds_to_delete.contains f.url)) }
  { s1 with feeds := s1.feeds.filter (fun f =>
      !(sqlNotInTexts f.category (s1.feeds.map (·.category)))) }

/-- `clean_database` (feedln.py lines 178-195), confirmed branch: for every
feed id, `DELETE FROM feed_items WHERE feed_id = ? ORDER BY last_updated
DESC LIMIT 10` — it removes the (up to) ten rows of that feed that come
first when sorted by `last_updated` descending, i.e. the ten most recent
ones. -/
def clean_database (s : Store) : Store :=
  s.feeds.foldl (fun st f =>
    let victims := (sortB (fun a b => decide (b.last_updated ≤ a.last_updated))
        (st.feed_items.filter (fun it => it.feed_id == f.id))).take 10
    { st with feed_items := st.feed_items.filter (fun it =>
        !(victims.any (fun v => v.id == it.id))) }) s

/-- One data row of the tabular feed file, as produced by `csv.DictReader`:
`Name`, `URL`, `Category` (`None` when the column is missing, possibly
empty), `Tags`. -/
structure CsvRow where
  name : String
  url : String
  category : Option String
  tags : String
deriving DecidableEq, Repr

/-- `INSERT OR IGNORE INTO feeds (name, url, tags) VALUES (?, ?, ?)`
(feedln.py lines 236-242 and 311-317).  `url` is UNIQUE; on conflict
nothing is inserted and the connection's `last_insert_rowid` is unchanged.
The `category` column is not in the column list, so it is NULL. -/
def insert_feed_or_ignore (c : Conn) (name url tags : String) : Conn :=
  if c.store.feeds.any (fun f => f.url == url) then c
  else
    let fid := nextFeedId c.store
    { store := { c.store with feeds := c.store.feeds ++
        [{ id := fid, name := name, url := url, tags := tags, category := none }] },
      lastRowid := fid }

/-- `INSERT OR IGNORE INTO categories (name) VALUES (?)`
(feedln.py lines 251-257 and 325-331). -/
def insert_category_or_ignore (c : Conn) (name : String) : Conn :=
  if c.store.categories.any (fun cat => cat.name == name) then c
  else
    let cid := nextCategoryId c.store
    { store := { c.store with categories := c.store.categories ++
        [{ id := cid, name := name }] },
      lastRowid := cid }

/-- `INSERT OR IGNORE INTO feed_categories (feed_id, category_id)
SELECT ?, id FROM categories WHERE name = ?` (feedln.py lines 258-264 and
332-338): for each category row named `name` (at most one, `name` being
UNIQUE), insert the pair unless it already exists. -/
def insert_feed_category_or_ignore (c : Conn) (feed_id : Nat) (name : String) : Conn :=
  (c.store.categories.filter (fun cat => cat.name == name)).foldl
    (fun c cat =>
      if c.store.feed_categories.any
          (fun fc => fc.feed_id == feed_id && fc.category_id == cat.id) then c
      else
        let rid := nextFcRowid c.store
        { store := { c.store with feed_categories := c.store.feed_categories ++
            [{ rowid := rid, feed_id := feed_id, category_id := cat.id }] },
          lastRowid := rid }) c

/-- Python's `str.split(";")`, character-wise: cut at every ';', keeping
empty pieces. -/
def splitSemiAux : List Char → List Char → List String
  | [], cur => [String.mk cur.reverse]
  | ch :: rest, cur =>
    if ch = ';' then String.mk cur.reverse :: splitSemiAux rest []
    else splitSemiAux rest (ch :: cur)

def pySplitSemi (s : String) : List String := splitSemiAux s.data []

/-- Python's `str.strip()`: drop leading and trailing whitespace. -/
def pyIsSpace (ch : Char) : Bool :=
  ch = ' ' || ch = '\t' || ch = '\n' || ch = '\r' || ch = '\x0b' || ch = '\x0c'

def pyStrip (s : String) : String :=
  String.mk (((s.data.dropWhile pyIsSpace).reverse.dropWhile pyIsSpace).reverse)

/-- Python's `str.startswith('#')`: is the first character a `#`? -/
def startsWithHash (s : String) : Bool :=
  match s.data with
  | [] => false
  | ch :: _ => ch = '#'

/-- The category loop shared by both loaders: split the category field on
";", strip whitespace, ensure the category row and the link row exist.
`feed_id` is whatever `cursor.lastrowid` held after the feed insert. -/
def linkCategories (c : Conn) (feed_id : Nat) (category_field : String) : Conn :=
  (pySplitSemi category_field).foldl (fun c category =>
    let category := pyStrip category
    let c := insert_category_or_ignore c category
    insert_feed_category_or_ignore c feed_id category) c

/-- The body of the `load_csv_feedfile_to_db` row loop (feedln.py lines
227-264): skip comment rows whose Name starts with `#`; insert the feed
with `INSERT OR IGNORE`; read `feed_id = cursor.lastrowid` (which is the
stale connection-level last-insert rowid when the insert was ignored);
then, when the Category field is non-empty, ensure each category and each
feed/category link. -/
def process_csv_row (c : Conn) (row : CsvRow) : Conn :=
  if startsWithHash row.name then c
  else
    let c1 := insert_feed_or_ignore c row.name row.url row.tags
    let feed_id := c1.lastRowid
    match row.category with
    | none => c1
    | some category_field =>
      if category_field = "" then c1
      else linkCategories c1 feed_id category_field

/-- `load_csv_feedfile_to_db` (feedln.py lines 223-268) over the parsed
rows of the file. -/
def load_csv_feedfile_to_db (c : Conn) (rows : List CsvRow) : Conn :=
  rows.foldl process_csv_row c

/-- A node of the hierarchical outline (OPML) file: optional `text`
attribute, optional `xmlUrl` attribute, child `outline` nodes. -/
inductive Outline where
  | node (text : Option String) (xmlUrl : Option String) (children : List Outline)

def Outline.text : Outline → Option String
  | .node t _ _ => t

def Outline.xmlUrl : Outline → Option String
  | .node _ u _ => u

def Outline.children : Outline → List Outline
  | .node _ _ cs => cs

/-- A feed descriptor extracted from the outline file:
`{'name': text or '', 'url': xmlUrl, 'category': list(category_stack)}`. -/
structure FeedDesc where
  name : String
  url : String
  category : List String
deriving DecidableEq, Repr

/-- `process_outline` of `extract_feeds_from_opml_file` (feedln.py lines
277-293): a node bearing `xmlUrl` emits a feed with the current category
stack; each child's `text` is pushed onto the stack before the recursive
call and popped afterwards. -/
def pushText (child : Outline) (stack : List String) : List String :=
  match child.text with
  | some t => stack ++ [t]
  | none => stack

mutual

def processOutline : Outline → List String → List FeedDesc
  | .node text xmlUrl children, stack =>
    (match xmlUrl with
     | some u => [{ name := text.getD "", url := u, category := stack }]
     | none => []) ++ processChildren children stack

def processChildren : List Outline → List String → List FeedDesc
  | [], _ => []
  | child :: rest, stack =>
    processOutline child (pushText child stack) ++ processChildren rest stack

end

/-- `extract_feeds_from_opml_file` (feedln.py lines 270-303): the `body`
loop starts each top-level outline with an empty stack, pushes its own
`text` if present, and recurses.  This is the same treatment every child
gets inside `process_outline`, so the whole file is `processChildren` of
the body's outline list with an empty stack. -/
def extract_feeds_from_opml_file (body : List Outline) : List FeedDesc :=
  processChildren body []

/-- The body of the `load_opml_feedfile_to_db` loop (feedln.py lines
309-338): insert the feed with the FIRST element of its category path as
the `tags` column value, read `feed_id = cursor.lastrowid`, and link only
that first element (split on ";") — deeper path labels are dropped. -/
def process_opml_feed (c : Conn) (feed : FeedDesc) : Conn :=
  let firstCat := match feed.category with
    | [] => ""
    | x :: _ => x
  let c1 := insert_feed_or_ignore c feed.name feed.url firstCat
  let feed_id := c1.lastRowid
  if firstCat.length > 0 then linkCategories c1 feed_id firstCat else c1

/-- `load_opml_feedfile_to_db` (feedln.py lines 305-342) over the parsed
outline body. -/
def load_opml_feedfile_to_db (c : Conn) (body : List Outline) : Conn :=
  (extract_feeds_from_opml_file body).foldl process_opml_feed c

/-! Concrete inputs used by individual claim checks. -/

/-- A store holding one feed (url "u") and nothing else. -/
def c2Store : Store :=
  { feeds := [{ id := 1, name := "F", url := "u", tags := "", category := none }],
    categories := [], feed_categories := [], feed_items := [] }

/-- Two feeds in one category, three items (two unread). -/
def c3Store : Store :=
  { feeds := [{ id := 1, name := "F1", url := "u1", tags := "", category := none },
              { id := 2, name := "F2", url := "u2", tags := "", category := none }],
    categories := [{ id := 1, name := "A" }],
    feed_categories := [{ rowid := 1, feed_id := 1, category_id := 1 },
                        { rowid := 2, feed_id := 2, category_id := 1 }],
    feed_items := [{ id := 1, feed_id := 1, title := "a", summary := "", content := "",
                     is_read := 0, last_updated := 1, created := 1, link := "" },
                   { id := 2, feed_id := 1, title := "b", summary := "", content := "",
                     is_read := 1, last_updated := 2, created := 2, link := "" },
                   { id := 3, feed_id := 2, title := "c", summary := "", content := "",
                     is_read := 0, last_updated := 3, created := 3, link := "" }] }

/-- A database with nothing in it, as `setup_database` first creates it. -/
def emptyStore : Store :=
  { feeds := [], categories := [], feed_categories := [], feed_items := [] }

/-- A store holding one feed and no items. -/
def c4Store : Store :=
  { feeds := [{ id := 1, name := "F", url := "u", tags := "", category := none }],
    categories := [], feed_categories := [], feed_items := [] }

/-- The feeds row of `c4Store`, as the tuple `update_feed_items` receives. -/
def c4Feed : FeedRow := { id := 1, name := "F", url := "u", tags := "", category := none }

/-- An entry whose processing succeeds. -/
def c4Entry : Entry :=
  { title := "t1", summary := "s1", content := "", updated_parsed := some 100,
    created_parsed := none, published_parsed := none, link := "l1" }

/-- A store from a previous program run: feed 1 with url "u1" exists but has
no category links (its file row had an empty Category field back then). -/
def c5Store : Store :=
  { feeds := [{ id := 1, name := "F1", url := "u1", tags := "", category := none }],
    categories := [], feed_categories := [], feed_items := [] }

/-- The same feed's file row, now listing category "A". -/
def c5Row : CsvRow := { name := "F1", url := "u1", category := some "A", tags := "" }

/-- One feed in one category, zero items: both counting scopes are empty. -/
def c6Store : Store :=
  { feeds := [{ id := 1, name := "F", url := "u", tags := "", category := none }],
    categories := [{ id := 1, name := "A" }],
    feed_categories := [{ rowid := 1, feed_id := 1, category_id := 1 }],
    feed_items := [] }

/-- One feed with a single unread item. -/
def c7Store : Store :=
  { feeds := [{ id := 1, name := "F", url := "u", tags := "", category := none }],
    categories := [], feed_categories := [],
    feed_items := [{ id := 1, feed_id := 1, title := "t", summary := "s", content := "c",
                     is_read := 0, last_updated := 5, created := 5, link := "l" }] }

/-- The outline body `A > B > feed(text="F", url="u")`. -/
def c8Body : List Outline :=
  [.node (some "A") none [.node (some "B") none [.node (some "F") (some "u") []]]]

def c9Item (i : Nat) : ItemRow :=
  { id := i, feed_id := 1, title := toString i, summary := "", content := "",
    is_read := 0, last_updated := (i : Int), created := (i : Int), link := "" }

/-- One feed with eleven items, `last_updated` 1 (oldest) through 11 (newest). -/
def c9Store : Store :=
  { feeds := [{ id := 1, name := "F", url := "u", tags := "", category := none }],
    categories := [], feed_categories := [],
    feed_items := (List.range 11).map (fun i => c9Item (i + 1)) }

/-- One feed with three items, `last_updated` 1 through 3. -/
def c9SmallStore : Store :=
  { feeds := [{ id := 1, name := "F", url := "u", tags := "", category := none }],
    categories := [], feed_categories := [],
    feed_items := (List.range 3).map (fun i => c9Item (i + 1)) }

/-- Feed 1 belongs to categories A and B, feed 2 only to A, feed 3 to none. -/
def c10Store : Store :=
  { feeds := [{ id := 1, name := "F1", url := "u1", tags := "", category := none },
              { id := 2, name := "F2", url := "u2", tags := "", category := none },
              { id := 3, name := "F3", url := "u3", tags := "", category := none }],
    categories := [{ id := 1, name := "A" }, { id := 2, name := "B" }],
    feed_categories := [{ rowid := 1, feed_id := 1, category_id := 1 },
                        { rowid := 2, feed_id := 1, category_id := 2 },
                        { rowid := 3, feed_id := 2, category_id := 1 }],
    feed_items := [] }

/-! Claim C1: idempotence of the merge. -/

theorem hasItem_insert {s : Store} {fid : Nat} {t : String} (fid' : Nat) (e : Entry)
    (h : hasItem s fid t = true) :
    hasItem (insert_feed_item_or_ignore s fid' e) fid t = true := by
  unfold insert_feed_item_or_ignore
  split
  · exact h
  · simp only [hasItem, List.any_append] at h ⊢
    simp [h]

theorem hasItem_insert_self (s : Store) (fid : Nat) (e : Entry) :
    hasItem (insert_feed_item_or_ignore s fid e) fid e.title = true := by
  unfold insert_feed_item_or_ignore
  split
  · assumption
  · simp [hasItem, List.any_append]

theorem hasItem_mergeEntries {s : Store} {fid : Nat} {t : String} (fid' : Nat)
    (es : List Entry) (h : hasItem s fid t = true) :
    hasItem (mergeEntries s fid' es) fid t = true := by
  induction es generalizing s with
  | nil => exact h
  | cons e rest ih =>
    simp only [mergeEntries, List.foldl_cons] at *
    exact ih (hasItem_insert fid' e h)

theorem mergeEntries_establishes (s : Store) (fid : Nat) (es : List Entry) :
    ∀ e ∈ es, hasItem (mergeEntries s fid es) fid e.title = true := by
  induction es generalizing s with
  | nil => intro e he; cases he
  | cons e rest ih =>
    intro e' he'
    simp only [mergeEntries, List.foldl_cons]
    rcases List.mem_cons.mp he' with h | h
    · subst h
      exact hasItem_mergeEntries fid rest (hasItem_insert_self s fid _)
    · exact ih _ e' h

theorem insert_feed_item_noop {s : Store} {fid : Nat} {e : Entry}
    (h : hasItem s fid e.title = true) :
    insert_feed_item_or_ignore s fid e = s := by
  simp [insert_feed_item_or_ignore, h]

theorem mergeEntries_noop {s : Store} {fid : Nat} {es : List Entry}
    (h : ∀ e ∈ es, hasItem s fid e.title = true) :
    mergeEntries s fid es = s := by
  induction es with
  | nil => rfl
  | cons e rest ih =>
    simp only [mergeEntries, List.foldl_cons] at *
    rw [insert_feed_item_noop (h e (List.mem_cons_self e rest))]
    exact ih (fun e' he' => h e' (List.mem_cons_of_mem e he'))

/-- C1: merge is idempotent.  For every store, feed and list of parsed
entries, running `update_feed_items_according_to_content` a second time on
the same `(feed, entries)` result leaves the entire store (in particular
the feed's item rows and their count) exactly as the first run left it: no
row is inserted, updated or removed by the second run. -/
theorem merge_idempotent (s : Store) (feed : FeedRow) (entries : List Entry) :
    update_feed_items_according_to_content
      (update_feed_items_according_to_content s (feed, some entries))
      (feed, some entries)
    = update_feed_items_according_to_content s (feed, some entries) := by
  simp only [update_feed_items_according_to_content]
  exact mergeEntries_noop (mergeEntries_establishes s feed.id entries)

/-! Claim C7: the read/unread round trip. -/

theorem mark_roundtrip_list (item_id : Nat) :
    ∀ l : List ItemRow, (∀ it ∈ l, it.id = item_id → it.is_read = 0) →
    (l.map (fun it => if it.id == item_id then { it with is_read := 1 } else it)).map
      (fun it => if it.id == item_id then { it with is_read := 0 } else it) = l := by
  intro l h
  induction l with
  | nil => rfl
  | cons it rest ih =>
    simp only [List.map_cons, List.cons.injEq]
    refine ⟨?_, ih (fun x hx hid => h x (List.mem_cons_of_mem it hx) hid)⟩
    by_cases hid : it.id = item_id
    · have h0 : it.is_read = 0 := h it (List.mem_cons_self it rest) hid
      cases it
      simp_all
    · simp [hid]

/-- C7: for every stored item whose `is_read` flag is 0, `mark_item_as_read
(•, item, 1)` followed by `mark_item_as_read (•, item, 0)` returns the
exact original store: the item's `is_read` is 0 again, every other field of
its row is unchanged, and every other row (items, feeds, categories, links)
is byte-identical. -/
theorem setread_roundtrip (s : Store) (item_id : Nat)
    (h : ∀ it ∈ s.feed_items, it.id = item_id → it.is_read = 0) :
    mark_item_as_read (mark_item_as_read s item_id 1) item_id 0 = s := by
  show ({ s with feed_items := _ } : Store) = s
  rw [show ((mark_item_as_read s item_id 1).feed_items.map
      (fun it => if it.id == item_id then { it with is_read := 0 } else it))
      = s.feed_items from mark_roundtrip_list item_id s.feed_items h]

/-- C7 witness: the round trip at a concrete store with one unread item. -/
theorem setread_roundtrip_witness :
    (∀ it ∈ c7Store.feed_items, it.id = 1 → it.is_read = 0) ∧
    mark_item_as_read (mark_item_as_read c7Store 1 1) 1 0 = c7Store :=
  ⟨by decide, setread_roundtrip c7Store 1 (by decide)⟩

/-! Claim C2: orphan-feed pruning. -/

/-- C2, evaluated at the failing input: the store holds one feed whose url
"u" IS in the feed-list file's url set, yet the prune deletes it (it
deletes every feed row), because line 600 discards the result of
`load_feed_urls` and compares against the still-empty set. -/
theorem clear_feeds_deletes_feeds_in_file :
    c2Store.feeds.map (·.url) = ["u"] ∧
    (clear_feeds_not_in_csv c2Store ["u"]).feeds = [] := by
  decide

/-! Claim C4: no partial commit on a mid-merge failure. -/

/-- C4, evaluated at the failing input: fetching feed 1 returns two
entries, the first processes fine and the second raises mid-loop.  The bare
`except:` swallows the exception and `conn.commit()` still runs, so the
first entry's row is committed: the feed's batch is left partially
committed rather than rolled back. -/
theorem update_feed_items_commits_unfinished_batch :
    c4Store.feed_items = [] ∧
    (update_feed_items c4Store c4Feed
        (some [Except.ok c4Entry, Except.error ()])).feed_items
      = [{ id := 1, feed_id := 1, title := "t1", summary := "s1", content := "",
           is_read := 0, last_updated := 100, created := 0, link := "l1" }] := by
  decide

/-! Claim C5: upsert of an already-present feed. -/

/-- C5, evaluated at the failing input: feed 1 (url "u1") already exists
without category links; a fresh run loads the file row ("F1", "u1", "A").
The feed insert is ignored, so `cursor.lastrowid` still holds the
connection's initial `last_insert_rowid` 0, and the link row is created
for feed id 0 instead of feed 1 — the feed whose url is in the file ends up
with no link to category "A". -/
theorem load_csv_links_wrong_feed :
    (load_csv_feedfile_to_db (Conn.fresh c5Store) [c5Row]).store.feed_categories
      = [{ rowid := 1, feed_id := 0, category_id := 1 }] ∧
    ∀ fc ∈ (load_csv_feedfile_to_db (Conn.fresh c5Store) [c5Row]).store.feed_categories,
      fc.feed_id ≠ 1 := by
  decide

/-! Claim C9: pruning old items. -/

/-- C9, evaluated at the failing input: a feed with eleven items
(`last_updated` 1..11) keeps ONLY its oldest item (id 1) after
`clean_database` — the `DELETE ... ORDER BY last_updated DESC LIMIT 10`
removes the ten most recent rows, the opposite of retaining them — and a
feed with three items loses all of them instead of losing nothing. -/
theorem clean_database_deletes_newest :
    (clean_database c9Store).feed_items.map (·.id) = [1] ∧
    (clean_database c9SmallStore).feed_items = [] := by
  decide

/-! Claim C6: NULL-coalescing of the counts. -/

/-- C6 counterexample: for a feed with zero stored items (and a category
whose only feed has zero items) the counts pair is `(0, NULL)`, not
`(0, 0)`: `COUNT` yields 0 but `SUM` yields SQL `NULL` on the empty scope,
and `get_feed_item_counts_by_feed` / `..._by_category` return it without
coalescing. -/
theorem counts_empty_scope_not_zero :
    c6Store.feed_items = [] ∧
    get_feed_item_counts_by_feed c6Store 1 ≠ ((0 : Nat), some 0) ∧
    get_feed_item_counts_by_category c6Store 1 ≠ ((0 : Nat), some 0) := by
  decide

/-- Every row of the item/feed join pairs an item of the store with a feed
row whose id is that item's `feed_id`. -/
theorem itemFeedPairs_mem {feeds : List FeedRow} {items : List ItemRow}
    {p : ItemRow × FeedRow} (hp : p ∈ itemFeedPairs feeds items) :
    p.1 ∈ items ∧ p.2.id = p.1.feed_id := by
  simp only [itemFeedPairs, List.mem_flatMap, List.mem_map] at hp
  obtain ⟨it, hit, f, hf, rfl⟩ := hp
  exact ⟨hit, by simpa using (List.mem_filter.mp hf).2⟩

/-- C6 (amended): for an empty scope the counts pair is `(0, NULL)` — the
`COUNT` component is 0 but the `SUM` component is SQL `NULL` (`none`), for
a feed with no stored items and for a category whose feeds have no stored
items alike; the display call sites coalesce the `NULL` to 0 when reading
it. -/
theorem counts_empty_scope (s : Store) (feed category : Nat)
    (hf : ∀ it ∈ s.feed_items, it.feed_id ≠ feed)
    (hc : ∀ it ∈ s.feed_items, (catFeedIds s category).contains it.feed_id = false) :
    get_feed_item_counts_by_feed s feed = ((0 : Nat), none) ∧
    displayedUnread (get_feed_item_counts_by_feed s feed) = 0 ∧
    get_feed_item_counts_by_category s category = ((0 : Nat), none) ∧
    displayedUnread (get_feed_item_counts_by_category s category) = 0 := by
  have hrowsf : (itemFeedPairs s.feeds s.feed_items).filter (fun p => p.2.id == feed) = [] := by
    rw [List.filter_eq_nil_iff]
    intro p hp
    obtain ⟨h1, h2⟩ := itemFeedPairs_mem hp
    simp [h2, hf p.1 h1]
  have hrowsc : (itemFeedPairs s.feeds s.feed_items).filter
      (fun p => (catFeedIds s category).contains p.2.id) = [] := by
    rw [List.filter_eq_nil_iff]
    intro p hp
    obtain ⟨h1, h2⟩ := itemFeedPairs_mem hp
    have hcm : p.1.feed_id ∉ catFeedIds s category := by simpa using hc p.1 h1
    simp [h2, hcm]
  have hfeedeq : get_feed_item_counts_by_feed s feed = ((0 : Nat), none) := by
    unfold get_feed_item_counts_by_feed
    rw [hrowsf]
    rfl
  have hcateq : get_feed_item_counts_by_category s category = ((0 : Nat), none) := by
    unfold get_feed_item_counts_by_category
    rw [hrowsc]
    rfl
  exact ⟨hfeedeq, by rw [hfeedeq]; rfl, hcateq, by rw [hcateq]; rfl⟩

/-- C6 witness: the amended statement at the concrete empty-scope store. -/
theorem counts_empty_scope_witness :
    ((∀ it ∈ c6Store.feed_items, it.feed_id ≠ 1) ∧
     (∀ it ∈ c6Store.feed_items, (catFeedIds c6Store 1).contains it.feed_id = false)) ∧
    (get_feed_item_counts_by_feed c6Store 1 = ((0 : Nat), none) ∧
     displayedUnread (get_feed_item_counts_by_feed c6Store 1) = 0 ∧
     get_feed_item_counts_by_category c6Store 1 = ((0 : Nat), none) ∧
     displayedUnread (get_feed_item_counts_by_category c6Store 1) = 0) :=
  ⟨⟨by decide, by decide⟩, counts_empty_scope c6Store 1 1 (by decide) (by decide)⟩

/-! Counting helpers shared by the aggregate-query claims. -/

theorem countP_flatMap (l : List α) (g : α → List β) (p : β → Bool) :
    (l.flatMap g).countP p = (l.map (fun a => (g a).countP p)).sum := by
  induction l with
  | nil => rfl
  | cons a as ih => simp [List.flatMap_cons, List.countP_append, ih]

theorem sum_map_add (l : List α) (f g : α → Nat) :
    (l.map (fun a => f a + g a)).sum = (l.map f).sum + (l.map g).sum := by
  induction l with
  | nil => rfl
  | cons a as ih => simp [ih]; omega

theorem sum_map_zero (l : List α) : (l.map (fun _ => (0 : Nat))).sum = 0 := by
  induction l with
  | nil => rfl
  | cons a as ih => simp [ih]

theorem sum_map_indicator (l : List α) (p : α → Bool) :
    (l.map (fun a => if p a then 1 else 0)).sum = l.countP p := by
  induction l with
  | nil => rfl
  | cons a as ih => rw [List.map_cons, List.sum_cons, List.countP_cons, ih]; omega

theorem countP_ext (l : List α) {p q : α → Bool} (h : ∀ x, p x = q x) :
    l.countP p = l.countP q := by
  rw [show p = q from funext h]

/-- In a feed list with pairwise-distinct ids, counting the rows whose id
is `n` and satisfy a further id predicate gives 1 or 0 according to the
predicate at `n`, provided some row has id `n`. -/
theorem countP_unique_id (pId : Nat → Bool) :
    ∀ (feeds : List FeedRow), (feeds.map (·.id)).Nodup → ∀ {n : Nat},
    n ∈ feeds.map (·.id) →
    feeds.countP (fun f => f.id == n && pId f.id) = if pId n then 1 else 0 := by
  intro feeds
  induction feeds with
  | nil => intro _ n hn; simp at hn
  | cons f rest ih =>
    intro hids n hn
    rw [List.map_cons, List.nodup_cons] at hids
    obtain ⟨hnotin, hnd⟩ := hids
    rw [List.map_cons] at hn
    rw [List.countP_cons]
    rcases List.mem_cons.mp hn with heq | hmem
    · subst heq
      have hz : rest.countP (fun f' => f'.id == f.id && pId f'.id) = 0 := by
        rw [List.countP_eq_zero]
        intro f' hf'
        have hne : f'.id ≠ f.id := by
          intro hcontra
          exact hnotin (hcontra ▸ List.mem_map_of_mem (·.id) hf')
        simp [hne]
      rw [hz]
      simp
    · have hne : f.id ≠ n := by
        intro hcontra
        exact hnotin (hcontra ▸ hmem)
      rw [ih hnd hmem]
      simp [hne]

theorem countP_or_disjoint (l : List α) (p r q : α → Bool)
    (h : ∀ x, p x = true → r x = false) :
    l.countP (fun x => (p x || r x) && q x)
      = l.countP (fun x => p x && q x) + l.countP (fun x => r x && q x) := by
  induction l with
  | nil => rfl
  | cons a as ih =>
    simp only [List.countP_cons, ih]
    have hdisj := h a
    cases hp : p a <;> cases hr : r a <;> cases hq : q a <;>
      simp [hp, hr, hq] at hdisj ⊢ <;> omega

/-- Splitting a count over a membership test against a duplicate-free key
list into a sum of per-key counts. -/
theorem sum_countP_distinct_keys (key : α → Nat) (q : α → Bool) (l : List α) :
    ∀ L : List Nat, L.Nodup →
    (L.map (fun n => l.countP (fun x => key x == n && q x))).sum
      = l.countP (fun x => L.contains (key x) && q x) := by
  intro L
  induction L with
  | nil =>
    intro _
    simp only [List.map_nil, List.sum_nil]
    symm
    rw [List.countP_eq_zero]
    intro x _
    simp
  | cons n ns ih =>
    intro hnd
    rw [List.nodup_cons] at hnd
    obtain ⟨hn, hnd⟩ := hnd
    rw [List.map_cons, List.sum_cons, ih hnd]
    rw [countP_ext l (fun x => by rw [List.contains_cons] :
      ∀ x, ((n :: ns).contains (key x) && q x)
        = ((key x == n || ns.contains (key x)) && q x))]
    rw [countP_or_disjoint l (fun x => key x == n) (fun x => ns.contains (key x)) q
      (fun x hx => by
        show ns.contains (key x) = false
        have hkey : key x = n := by simpa using hx
        rw [hkey]
        simpa using hn)]

/-! Claim C3: unread accounting. -/

/-- Counting over the filtered item/feed join reduces to counting items,
when feed ids are pairwise distinct and every item's `feed_id` exists. -/
theorem itemFeedPairs_cons (feeds : List FeedRow) (it : ItemRow) (rest : List ItemRow) :
    itemFeedPairs feeds (it :: rest)
      = (feeds.filter (fun f => f.id == it.feed_id)).map (fun f => (it, f))
        ++ itemFeedPairs feeds rest := by
  unfold itemFeedPairs
  rw [List.flatMap_cons]

theorem countP_itemFeedPairs (feeds : List FeedRow)
    (hids : (feeds.map (·.id)).Nodup) (memb : Nat → Bool) (q : ItemRow → Bool) :
    ∀ items : List ItemRow, (∀ it ∈ items, it.feed_id ∈ feeds.map (·.id)) →
    ((itemFeedPairs feeds items).filter (fun p => memb p.2.id)).countP (fun p => q p.1)
      = items.countP (fun it => memb it.feed_id && q it) := by
  intro items
  induction items with
  | nil => intro _; rfl
  | cons it rest ih =>
    intro hfk
    have hit : it.feed_id ∈ feeds.map (·.id) := hfk it (List.mem_cons_self it rest)
    rw [itemFeedPairs_cons, List.filter_append, List.countP_append]
    have hhead : (((feeds.filter (fun f => f.id == it.feed_id)).map
        (fun f => (it, f))).filter (fun p => memb p.2.id)).countP (fun p => q p.1)
        = if memb it.feed_id && q it then 1 else 0 := by
      rw [List.countP_filter, List.countP_map]
      rw [List.countP_filter]
      by_cases hq : q it
      · rw [countP_ext feeds (q := fun f => f.id == it.feed_id && memb f.id)
          (fun f => by rw [Bool.eq_iff_iff]; simp [hq, and_comm])]
        rw [countP_unique_id memb feeds hids hit]
        simp [hq]
      · rw [countP_ext feeds (q := fun _ => false)
          (fun f => by rw [Bool.eq_iff_iff]; simp [hq])]
        simp [hq]
    rw [hhead, ih (fun x hx => hfk x (List.mem_cons_of_mem it hx)), List.countP_cons]
    omega

/-- The unread component, as the display reads it, is the unread row count
of the scope — with no rows the NULL coalesces to the count 0. -/
theorem displayedUnread_countAndUnread (rows : List (ItemRow × FeedRow)) :
    displayedUnread (countAndUnread rows) = rows.countP (fun p => p.1.is_read == 0) := by
  by_cases h : rows.isEmpty
  · rw [List.isEmpty_iff] at h
    subst h
    rfl
  · unfold countAndUnread displayedUnread
    rw [if_neg h]
    rfl

theorem displayedUnread_by_feed (s : Store) (feed : Nat)
    (hids : (s.feeds.map (·.id)).Nodup)
    (hfk : ∀ it ∈ s.feed_items, it.feed_id ∈ s.feeds.map (·.id)) :
    displayedUnread (get_feed_item_counts_by_feed s feed)
      = s.feed_items.countP (fun it => it.feed_id == feed && it.is_read == 0) := by
  unfold get_feed_item_counts_by_feed
  rw [displayedUnread_countAndUnread]
  exact countP_itemFeedPairs s.feeds hids (fun n => n == feed)
    (fun it => it.is_read == 0) s.feed_items hfk

theorem displayedUnread_by_category (s : Store) (category : Nat)
    (hids : (s.feeds.map (·.id)).Nodup)
    (hfk : ∀ it ∈ s.feed_items, it.feed_id ∈ s.feeds.map (·.id)) :
    displayedUnread (get_feed_item_counts_by_category s category)
      = s.feed_items.countP (fun it =>
          (catFeedIds s category).contains it.feed_id && it.is_read == 0) := by
  unfold get_feed_item_counts_by_category
  rw [displayedUnread_countAndUnread]
  exact countP_itemFeedPairs s.feeds hids (fun n => (catFeedIds s category).contains n)
    (fun it => it.is_read == 0) s.feed_items hfk

/-- C3: unread accounting is consistent.  For every category, the unread
component of the category counts query equals the sum over the category's
feeds (per the `feed_categories` links) of the unread component of the
per-feed counts query, and both equal the number of stored items with
`is_read = 0` belonging to the category's feeds.  Unread components are
read as the display does (SQL NULL coalesced to 0); both queries recompute
the aggregate from the live item rows.  Hypotheses: feed ids are unique
(primary key), a feed is linked at most once to the category (composite
primary key) and every item's `feed_id` refers to an existing feed (foreign
key). -/
theorem unread_accounting (s : Store) (category : Nat)
    (hids : (s.feeds.map (·.id)).Nodup)
    (hnd : (catFeedIds s category).Nodup)
    (hfk : ∀ it ∈ s.feed_items, it.feed_id ∈ s.feeds.map (·.id)) :
    displayedUnread (get_feed_item_counts_by_category s category)
      = ((catFeedIds s category).map
          (fun feed => displayedUnread (get_feed_item_counts_by_feed s feed))).sum
    ∧ displayedUnread (get_feed_item_counts_by_category s category)
      = s.feed_items.countP (fun it =>
          (catFeedIds s category).contains it.feed_id && it.is_read == 0) := by
  have hcat := displayedUnread_by_category s category hids hfk
  refine ⟨?_, hcat⟩
  rw [hcat, List.map_congr_left (fun feed _ => displayedUnread_by_feed s feed hids hfk)]
  exact (sum_countP_distinct_keys (fun it => it.feed_id) (fun it => it.is_read == 0)
    s.feed_items (catFeedIds s category) hnd).symm

/-- C3 witness: the accounting identity at a concrete two-feed category. -/
theorem unread_accounting_witness :
    ((c3Store.feeds.map (·.id)).Nodup ∧ (catFeedIds c3Store 1).Nodup ∧
      (∀ it ∈ c3Store.feed_items, it.feed_id ∈ c3Store.feeds.map (·.id))) ∧
    (displayedUnread (get_feed_item_counts_by_category c3Store 1)
        = ((catFeedIds c3Store 1).map
            (fun feed => displayedUnread (get_feed_item_counts_by_feed c3Store feed))).sum
      ∧ displayedUnread (get_feed_item_counts_by_category c3Store 1)
        = c3Store.feed_items.countP (fun it =>
            (catFeedIds c3Store 1).contains it.feed_id && it.is_read == 0)) :=
  ⟨⟨by decide, by decide, by decide⟩,
   unread_accounting c3Store 1 (by decide) (by decide) (by decide)⟩

/-! Claim C10: assembly of the bulk-fetch batch. -/

theorem perm_insertB (le : α → α → Bool) (a : α) (l : List α) :
    List.Perm (insertB le a l) (a :: l) := by
  induction l with
  | nil => exact List.Perm.refl _
  | cons b bs ih =>
    unfold insertB
    split
    · exact List.Perm.refl _
    · exact (List.Perm.cons b ih).trans (List.Perm.swap a b bs)

theorem perm_sortB (le : α → α → Bool) (l : List α) : List.Perm (sortB le l) l := by
  induction l with
  | nil => exact List.Perm.refl _
  | cons a as ih =>
    exact (perm_insertB le a (sortB le as)).trans (List.Perm.cons a ih)

/-- With category names unique, filtering the categories table on the name
of a member row `c0` and on an id `n` yields exactly one row when
`n = c0.id` and none otherwise. -/
theorem filter_unique_name :
    ∀ (cats : List CategoryRow), (cats.map (·.name)).Nodup →
    ∀ {c0 : CategoryRow}, c0 ∈ cats → ∀ (n : Nat),
    (cats.filter (fun c => c.id == n && c.name == c0.name)).length
      = if c0.id == n then 1 else 0 := by
  intro cats
  induction cats with
  | nil => intro _ c0 hc0; cases hc0
  | cons c rest ih =>
    intro hnames c0 hc0 n
    rw [List.map_cons, List.nodup_cons] at hnames
    obtain ⟨hnot, hnd⟩ := hnames
    rcases List.mem_cons.mp hc0 with heq | hmem
    · subst heq
      rw [List.filter_cons]
      have hzrest : rest.filter (fun c' => c'.id == n && c'.name == c0.name) = [] := by
        rw [List.filter_eq_nil_iff]
        intro c' hc'
        have hne : c'.name ≠ c0.name := by
          intro hcontra
          exact hnot (hcontra ▸ List.mem_map_of_mem (·.name) hc')
        simp [hne]
      by_cases hid : c0.id == n
      · simp [hid, hzrest]
      · simp [hid, hzrest]
    · have hne : c.name ≠ c0.name := by
        intro hcontra
        exact hnot (hcontra ▸ List.mem_map_of_mem (·.name) hmem)
      rw [List.filter_cons]
      have hcond : (c.id == n && c.name == c0.name) = false := by simp [hne]
      simp only [hcond, Bool.false_eq_true, if_false]
      exact ih hnd hmem n

/-- The inner two joins of `fetch_feeds_by_category` for one feed row:
counting their output rows by a feed-id predicate. -/
theorem inner_feeds_count (s : Store)
    (hnames : (s.categories.map (·.name)).Nodup)
    {c0 : CategoryRow} (hc0 : c0 ∈ s.categories) (pId : Nat → Bool) (f : FeedRow) :
    ((s.feed_categories.filter (fun fc => fc.feed_id == f.id)).flatMap (fun fc =>
        (s.categories.filter (fun c => c.id == fc.category_id && c.name == c0.name)).map
          (fun _ => f))).countP (fun g => pId g.id)
      = if pId f.id
        then s.feed_categories.countP
          (fun fc => fc.category_id == c0.id && fc.feed_id == f.id)
        else 0 := by
  rw [countP_flatMap]
  have hpt : ∀ fc : FeedCategoryRow,
      (((s.categories.filter (fun c => c.id == fc.category_id && c.name == c0.name)).map
        (fun _ => f)).countP (fun g => pId g.id))
      = if pId f.id then (if c0.id == fc.category_id then 1 else 0) else 0 := by
    intro fc
    rw [List.countP_map]
    by_cases hp : pId f.id
    · rw [countP_ext _ (q := fun _ => true) (fun c => by simp [hp])]
      rw [List.countP_true]
      rw [filter_unique_name s.categories hnames hc0 fc.category_id]
      simp [hp]
    · rw [countP_ext _ (q := fun _ => false) (fun c => by simp [hp])]
      simp [hp]
  refine Eq.trans (congrArg List.sum (List.map_congr_left (fun fc _ => hpt fc))) ?_
  by_cases hp : pId f.id
  · simp only [hp, if_true]
    rw [sum_map_indicator, List.countP_filter]
    refine countP_ext _ (fun fc => ?_)
    rw [Bool.eq_iff_iff]
    simp only [Bool.and_eq_true, beq_iff_eq]
    constructor
    · rintro ⟨h1, h2⟩; exact ⟨h1.symm, h2⟩
    · rintro ⟨h1, h2⟩; exact ⟨h1.symm, h2⟩
  · simp only [hp, Bool.false_eq_true, if_false]
    exact sum_map_zero _

/-- Exchanging the per-feed sum of link counts for a single count over the
`feed_categories` table, using unique feed ids and the feed foreign key. -/
theorem sum_over_feeds_eq_countP (pId : Nat → Bool) (r : FeedCategoryRow → Bool)
    (feeds : List FeedRow) (hids : (feeds.map (·.id)).Nodup) :
    ∀ (fcs : List FeedCategoryRow), (∀ fc ∈ fcs, fc.feed_id ∈ feeds.map (·.id)) →
    (feeds.map (fun f => if pId f.id
        then fcs.countP (fun fc => r fc && fc.feed_id == f.id) else 0)).sum
      = fcs.countP (fun fc => r fc && pId fc.feed_id) := by
  intro fcs
  induction fcs with
  | nil =>
    intro _
    refine Eq.trans (congrArg List.sum (List.map_congr_left (fun f _ => ?_)))
      (sum_map_zero feeds)
    cases hp : pId f.id <;> simp [hp]
  | cons fc0 rest ih =>
    intro hfk
    have hmem0 : fc0.feed_id ∈ feeds.map (·.id) := hfk fc0 (List.mem_cons_self _ _)
    have hrest := ih (fun x hx => hfk x (List.mem_cons_of_mem fc0 hx))
    have hpt : ∀ f : FeedRow,
        (if pId f.id then (fc0 :: rest).countP (fun fc => r fc && fc.feed_id == f.id) else 0)
        = (if pId f.id then rest.countP (fun fc => r fc && fc.feed_id == f.id) else 0)
          + (if (f.id == fc0.feed_id && (r fc0 && pId f.id)) then 1 else 0) := by
      intro f
      rw [List.countP_cons]
      cases hp : pId f.id
      · simp [hp]
      · by_cases hfe : fc0.feed_id = f.id
        · simp [hp, hfe]
        · have hfe2 : ¬ f.id = fc0.feed_id := fun h => hfe h.symm
          simp [hp, hfe, hfe2]
    refine Eq.trans (congrArg List.sum (List.map_congr_left (fun f _ => hpt f))) ?_
    rw [sum_map_add, hrest]
    have h2 : (feeds.map
        (fun f => if (f.id == fc0.feed_id && (r fc0 && pId f.id)) then 1 else 0)).sum
        = if (r fc0 && pId fc0.feed_id) then 1 else 0 := by
      rw [sum_map_indicator]
      exact countP_unique_id (fun m => r fc0 && pId m) feeds hids hmem0
    rw [h2, List.countP_cons]

/-- Counting the bulk batch by any feed-id predicate equals counting the
`feed_categories` table by the same predicate on `feed_id`: every link row
contributes exactly one batch element. -/
theorem fetch_all_batch_countP (s : Store)
    (hids : (s.feeds.map (·.id)).Nodup)
    (hcatids : (s.categories.map (·.id)).Nodup)
    (hnames : (s.categories.map (·.name)).Nodup)
    (hfk1 : ∀ fc ∈ s.feed_categories, fc.feed_id ∈ s.feeds.map (·.id))
    (hfk2 : ∀ fc ∈ s.feed_categories, fc.category_id ∈ s.categories.map (·.id))
    (pId : Nat → Bool) :
    (fetch_all_feeds_batch s).countP (fun f => pId f.id)
      = s.feed_categories.countP (fun fc => pId fc.feed_id) := by
  have hpercat : ∀ c0 ∈ s.categories,
      (fetch_feeds_by_category s c0.name).countP (fun f => pId f.id)
        = s.feed_categories.countP (fun fc => (fc.category_id == c0.id) && pId fc.feed_id) := by
    intro c0 hc0
    unfold fetch_feeds_by_category
    rw [countP_flatMap]
    refine Eq.trans (congrArg List.sum (List.map_congr_left
      (fun f _ => inner_feeds_count s hnames hc0 pId f))) ?_
    exact sum_over_feeds_eq_countP pId (fun fc => fc.category_id == c0.id)
      s.feeds hids s.feed_categories hfk1
  have hfst : (categoryPairs s).map Prod.fst = s.categories.map (·.name) := by
    unfold categoryPairs
    rw [List.map_map]
    rfl
  have hpairs : (categoryPairs s).Nodup :=
    List.Nodup.of_map Prod.fst (by rw [hfst]; exact hnames)
  have hdedup : (categoryPairs s).dedup = categoryPairs s := List.dedup_eq_self.mpr hpairs
  have hperm : List.Perm (fetch_categories s 3) (categoryPairs s) := by
    rw [show fetch_categories s 3 = sortB (fun a b =>
        decide (categoryUnreadAgg s b.2 < categoryUnreadAgg s a.2) ||
        (categoryUnreadAgg s a.2 == categoryUnreadAgg s b.2 && decide (a.1 ≤ b.1)))
        (categoryPairs s).dedup from rfl]
    rw [hdedup]
    exact perm_sortB _ _
  unfold fetch_all_feeds_batch
  rw [countP_flatMap]
  rw [(hperm.map (fun category =>
    (fetch_feeds_by_category s category.1).countP (fun f => pId f.id))).sum_eq]
  unfold categoryPairs
  rw [List.map_map]
  refine Eq.trans (congrArg List.sum (List.map_congr_left
    (fun c0 hc0 => hpercat c0 hc0))) ?_
  have hmm : s.categories.map (fun c0 => s.feed_categories.countP
        (fun fc => (fc.category_id == c0.id) && pId fc.feed_id))
      = (s.categories.map (·.id)).map (fun n => s.feed_categories.countP
        (fun fc => (fc.category_id == n) && pId fc.feed_id)) := by
    rw [List.map_map]
    rfl
  rw [hmm]
  rw [sum_countP_distinct_keys (fun fc => fc.category_id) (fun fc => pId fc.feed_id)
    s.feed_categories (s.categories.map (·.id)) hcatids]
  apply List.countP_congr
  intro fc hfc
  have hin : fc.category_id ∈ s.categories.map (·.id) := hfk2 fc hfc
  simp [hin]

/-- C10: the bulk fetch-all batch is the concatenation of every category's
feed listing.  Under the schema's key constraints (unique feed ids, unique
category ids and names, link rows referencing existing feeds and
categories): the number of occurrences of a feed id in the batch equals the
number of `feed_categories` links of that feed — so a feed in k categories
is fetched and merged k times in the one batch and a feed in no category is
never fetched — and the batch length (the `len(results)` figure reported by
the summary notices) equals the total number of link rows, counting
per-membership occurrences rather than distinct feeds. -/
theorem fetch_all_batch_counts (s : Store) (fid : Nat)
    (hids : (s.feeds.map (·.id)).Nodup)
    (hcatids : (s.categories.map (·.id)).Nodup)
    (hnames : (s.categories.map (·.name)).Nodup)
    (hfk1 : ∀ fc ∈ s.feed_categories, fc.feed_id ∈ s.feeds.map (·.id))
    (hfk2 : ∀ fc ∈ s.feed_categories, fc.category_id ∈ s.categories.map (·.id)) :
    (fetch_all_feeds_batch s).countP (fun f => f.id == fid)
      = s.feed_categories.countP (fun fc => fc.feed_id == fid)
    ∧ (fetch_all_feeds_batch s).length = s.feed_categories.length := by
  constructor
  · exact fetch_all_batch_countP s hids hcatids hnames hfk1 hfk2 (fun n => n == fid)
  · have h := fetch_all_batch_countP s hids hcatids hnames hfk1 hfk2 (fun _ => true)
    simpa using h

/-- C10 witness: the occurrence counts at a concrete store where feed 1 is
in two categories, feed 2 in one and feed 3 in none. -/
theorem fetch_all_batch_counts_witness :
    ((c10Store.feeds.map (·.id)).Nodup ∧
     (c10Store.categories.map (·.id)).Nodup ∧
     (c10Store.categories.map (·.name)).Nodup ∧
     (∀ fc ∈ c10Store.feed_categories, fc.feed_id ∈ c10Store.feeds.map (·.id)) ∧
     (∀ fc ∈ c10Store.feed_categories, fc.category_id ∈ c10Store.categories.map (·.id))) ∧
    ((fetch_all_feeds_batch c10Store).countP (fun f => f.id == 1)
       = c10Store.feed_categories.countP (fun fc => fc.feed_id == 1)
     ∧ (fetch_all_feeds_batch c10Store).length = c10Store.feed_categories.length) :=
  ⟨⟨by decide, by decide, by decide, by decide, by decide⟩,
   fetch_all_batch_counts c10Store 1 (by decide) (by decide) (by decide)
     (by decide) (by decide)⟩

/-! Claim C8: first-label-only category for outline files. -/

/-- C8: loading the hierarchical outline `A > B > feed(url "u")` into an
empty database categorizes the feed as "A" only: of the accumulated
category path, only the FIRST label is used as the feed's category string —
the deeper label "B" creates no category row and no link.  The first
conjunct exhibits the first-label projection of the extracted descriptor;
the second shows the entire loaded store. -/
theorem opml_first_label_only :
    ((extract_feeds_from_opml_file c8Body).map (fun d => (d.url, d.category.headD "")))
      = [("u", "A")] ∧
    (load_opml_feedfile_to_db (Conn.fresh emptyStore) c8Body).store
      = { feeds := [{ id := 1, name := "F", url := "u", tags := "A", category := none }],
          categories := [{ id := 1, name := "A" }],
          feed_categories := [{ rowid := 1, feed_id := 1, category_id := 1 }],
          feed_items := [] } := by
  decide

end Feedln
